import Mathlib

/-!
Verification development for the landscaping contractor application
(`src/landscaping_app/app.py`).  The SQLite tables are embedded as
association lists keyed by their autoincrement ids, the request handlers
of the core (quote workflow, job lifecycle, billing reconciliation and
the cascade rules) become pure functions from a `Store` to
`Except Err Store`, and the timestamps produced by `datetime.utcnow()`
become an explicit `now : Nat` argument.  REAL columns carry only sums
and order comparisons in the core, so they are embedded as `Int`.

HTTP failure responses of the handlers are mapped to the error taxonomy
of the specification: a 404 from a fetch helper is `notFound`, the 400
of an unknown enum value is `validationError`, the 400 of a quote
state-machine violation is `invalidTransition`, the 400 of an invoice
operation on a non-Completed job is `preconditionFailed`, the
`?error=has_jobs` redirect of client deletion is `conflictError`, and
the 400 of editing a completed job is `invalidState`.
-/

/-- Error kinds of the core, per the handlers' failure responses. -/
inductive Err where
  | notFound
  | validationError
  | invalidTransition
  | preconditionFailed
  | conflictError
  | invalidState
deriving DecidableEq

/-- Row of the `clients` table. -/
structure Client where
  name : String
  address : String
  phone : String
  email : String
deriving DecidableEq

/-- Row of the `crews` table. -/
structure Crew where
  name : String
deriving DecidableEq

/-- Row of the `members` table. -/
structure Member where
  name : String
deriving DecidableEq

/-- Row of the `jobs` table.  `status` is a raw string, as in the code,
which stores whatever string is written to the column. -/
structure Job where
  client_id : Nat
  description : String
  scheduled_date : Nat
  crew : String
  crew_id : Option Nat
  estimated_hours : Option Int
  estimated_cost : Option Int
  actual_hours : Option Int
  actual_cost : Option Int
  status : String
  invoice_sent_at : Option Nat
  invoice_status : Option String
  paid_at : Option Nat
  on_my_way_sent_at : Option Nat
deriving DecidableEq

/-- Row of the `tasks` table. -/
structure JobTask where
  job_id : Nat
  description : String
  completed : Bool
deriving DecidableEq

/-- Row of the `quotes` table. -/
structure Quote where
  client_id : Nat
  description : String
  estimated_hours : Int
  estimated_cost : Int
  status : String
  created_at : Option Nat
  valid_until : Option Nat
  job_id : Option Nat
deriving DecidableEq

/-- Row of the `payments` table. -/
structure Payment where
  job_id : Nat
  amount : Int
  method : String
  paid_at : Nat
deriving DecidableEq

/-- The database: one association list per table, keyed by the
autoincrement id, plus the next id each `AUTOINCREMENT` column will
assign.  `job_members` holds `(job_id, member_id)` pairs. -/
structure Store where
  clients : List (Nat × Client)
  crews : List (Nat × Crew)
  members : List (Nat × Member)
  jobs : List (Nat × Job)
  tasks : List (Nat × JobTask)
  quotes : List (Nat × Quote)
  payments : List (Nat × Payment)
  job_members : List (Nat × Nat)
  nextClientId : Nat
  nextCrewId : Nat
  nextMemberId : Nat
  nextJobId : Nat
  nextTaskId : Nat
  nextQuoteId : Nat
  nextPaymentId : Nat
deriving DecidableEq

/-- Decidable equality for handler results, so concrete runs can be
checked by `decide`. -/
instance {ε α : Type} [DecidableEq ε] [DecidableEq α] :
    DecidableEq (Except ε α) := fun a b =>
  match a, b with
  | .error e1, .error e2 =>
    if h : e1 = e2 then .isTrue (by rw [h])
    else .isFalse (by intro hc; cases hc; exact h rfl)
  | .error _, .ok _ => .isFalse (by intro hc; cases hc)
  | .ok _, .error _ => .isFalse (by intro hc; cases hc)
  | .ok a1, .ok a2 =>
    if h : a1 = a2 then .isTrue (by rw [h])
    else .isFalse (by intro hc; cases hc; exact h rfl)

/-- The freshly initialised database: empty tables, ids starting at 1. -/
def emptyStore : Store :=
  { clients := [], crews := [], members := [], jobs := [], tasks := []
    quotes := [], payments := [], job_members := []
    nextClientId := 1, nextCrewId := 1, nextMemberId := 1, nextJobId := 1
    nextTaskId := 1, nextQuoteId := 1, nextPaymentId := 1 }

/-- `SELECT * FROM t WHERE id = ?` over an association list. -/
def lookupA {α : Type} (l : List (Nat × α)) (id : Nat) : Option α :=
  (l.find? (fun p => p.1 == id)).map (fun p => p.2)

/-- `UPDATE t SET ... WHERE id = ?` over an association list. -/
def updAssoc {α : Type} (l : List (Nat × α)) (id : Nat) (f : α → α) :
    List (Nat × α) :=
  l.map (fun p => if p.1 == id then (p.1, f p.2) else p)

/-- `SELECT id FROM jobs ORDER BY id DESC LIMIT 1`, as used by
`accept_quote` to recover the id of the job it just inserted. -/
def maxId (l : List (Nat × Job)) : Nat :=
  l.foldl (fun m p => max m p.1) 0

/-- Embeds `fetch_client` (`SELECT * FROM clients WHERE id = ?`, 404 when
absent). -/
def fetch_client (s : Store) (cid : Nat) : Option Client :=
  lookupA s.clients cid

/-- Embeds `fetch_crew`. -/
def fetch_crew (s : Store) (cid : Nat) : Option Crew :=
  lookupA s.crews cid

/-- Embeds `fetch_member`. -/
def fetch_member (s : Store) (mid : Nat) : Option Member :=
  lookupA s.members mid

/-- Embeds `fetch_job`: the query is an inner `JOIN clients` (and a left
join on crews), so the row is returned only when the job and its client
both exist. -/
def fetch_job (s : Store) (jid : Nat) : Option Job :=
  match lookupA s.jobs jid with
  | none => none
  | some job =>
    match lookupA s.clients job.client_id with
    | none => none
    | some _ => some job

/-- Embeds `fetch_quote`: an inner `JOIN clients`, so the row is
returned only when the quote and its client both exist. -/
def fetch_quote (s : Store) (qid : Nat) : Option Quote :=
  match lookupA s.quotes qid with
  | none => none
  | some q =>
    match lookupA s.clients q.client_id with
    | none => none
    | some _ => some q

/-- Embeds `create_client` (`POST /clients/new`).  Whitespace stripping
of the form fields is presentation-layer normalisation and is left to
the caller of the embedding. -/
def create_client (s : Store) (name address phone email : String) :
    Except Err Store :=
  .ok { s with
    clients := s.clients ++ [(s.nextClientId, ⟨name, address, phone, email⟩)]
    nextClientId := s.nextClientId + 1 }

/-- Embeds `update_client` (`POST /clients/{id}/edit`). -/
def update_client (s : Store) (cid : Nat) (name address phone email : String) :
    Except Err Store :=
  match fetch_client s cid with
  | none => .error .notFound
  | some _ =>
    .ok { s with
      clients := updAssoc s.clients cid (fun _ => ⟨name, address, phone, email⟩) }

/-- Embeds `delete_client` (`POST /clients/{id}/delete`): 404 when the
client is absent, `has_jobs` conflict when any job references it,
otherwise `DELETE FROM clients WHERE id = ?`. -/
def delete_client (s : Store) (cid : Nat) : Except Err Store :=
  match fetch_client s cid with
  | none => .error .notFound
  | some _ =>
    if 0 < (s.jobs.filter (fun p => p.2.client_id == cid)).length then
      .error .conflictError
    else
      .ok { s with clients := s.clients.filter (fun p => p.1 != cid) }

/-- Embeds `create_crew`. -/
def create_crew (s : Store) (name : String) : Except Err Store :=
  .ok { s with
    crews := s.crews ++ [(s.nextCrewId, ⟨name⟩)]
    nextCrewId := s.nextCrewId + 1 }

/-- Embeds `update_crew`. -/
def update_crew (s : Store) (cid : Nat) (name : String) : Except Err Store :=
  match fetch_crew s cid with
  | none => .error .notFound
  | some _ => .ok { s with crews := updAssoc s.crews cid (fun _ => ⟨name⟩) }

/-- Embeds `delete_crew`: nulls `crew_id` on every referencing job, then
deletes the crew row. -/
def delete_crew (s : Store) (cid : Nat) : Except Err Store :=
  match fetch_crew s cid with
  | none => .error .notFound
  | some _ =>
    .ok { s with
      jobs := s.jobs.map (fun p =>
        if p.2.crew_id == some cid then (p.1, { p.2 with crew_id := none }) else p)
      crews := s.crews.filter (fun p => p.1 != cid) }

/-- Embeds `create_member`. -/
def create_member (s : Store) (name : String) : Except Err Store :=
  .ok { s with
    members := s.members ++ [(s.nextMemberId, ⟨name⟩)]
    nextMemberId := s.nextMemberId + 1 }

/-- Embeds `update_member`. -/
def update_member (s : Store) (mid : Nat) (name : String) : Except Err Store :=
  match fetch_member s mid with
  | none => .error .notFound
  | some _ => .ok { s with members := updAssoc s.members mid (fun _ => ⟨name⟩) }

/-- Embeds `delete_member`: removes its `job_members` association rows,
then the member row. -/
def delete_member (s : Store) (mid : Nat) : Except Err Store :=
  match fetch_member s mid with
  | none => .error .notFound
  | some _ =>
    .ok { s with
      job_members := s.job_members.filter (fun p => p.2 != mid)
      members := s.members.filter (fun p => p.1 != mid) }

/-- Embeds `create_quote` (`POST /quotes/new`): checks the client
exists, inserts with status `Draft` and `created_at = now`. -/
def create_quote (s : Store) (client_id : Nat) (description : String)
    (estimated_hours estimated_cost : Int) (valid_until : Option Nat)
    (now : Nat) : Except Err Store :=
  match fetch_client s client_id with
  | none => .error .notFound
  | some _ =>
    .ok { s with
      quotes := s.quotes ++ [(s.nextQuoteId,
        { client_id := client_id, description := description
          estimated_hours := estimated_hours, estimated_cost := estimated_cost
          status := "Draft", created_at := some now
          valid_until := valid_until, job_id := none })]
      nextQuoteId := s.nextQuoteId + 1 }

/-- Embeds `send_quote`: only a `Draft` quote can be marked `Sent`. -/
def send_quote (s : Store) (qid : Nat) : Except Err Store :=
  match fetch_quote s qid with
  | none => .error .notFound
  | some q =>
    if q.status ≠ "Draft" then .error .invalidTransition
    else .ok { s with quotes := updAssoc s.quotes qid (fun q0 => { q0 with status := "Sent" }) }

/-- Embeds `decline_quote`: allowed from `Draft` or `Sent` only. -/
def decline_quote (s : Store) (qid : Nat) : Except Err Store :=
  match fetch_quote s qid with
  | none => .error .notFound
  | some q =>
    if q.status = "Draft" ∨ q.status = "Sent" then
      .ok { s with quotes := updAssoc s.quotes qid (fun q0 => { q0 with status := "Declined" }) }
    else .error .invalidTransition

/-- The job row `accept_quote` inserts from a quote: the quote's client,
description and estimates, scheduled now, status `Scheduled`. -/
def mkJobFromQuote (q : Quote) (now : Nat) : Job :=
  { client_id := q.client_id, description := q.description
    scheduled_date := now, crew := "", crew_id := none
    estimated_hours := some q.estimated_hours
    estimated_cost := some q.estimated_cost
    actual_hours := none, actual_cost := none, status := "Scheduled"
    invoice_sent_at := none, invoice_status := none, paid_at := none
    on_my_way_sent_at := none }

/-- Embeds `accept_quote` (`POST /quotes/{id}/accept`).  On an already
Accepted quote it redirects to the stored `job_id` without touching the
store; on a Declined quote it fails; otherwise it inserts the job,
recovers its id with the `ORDER BY id DESC LIMIT 1` query, and updates
the quote to `Accepted` with that `job_id`.  The returned value is the
job id the handler redirects to. -/
def accept_quote (s : Store) (qid : Nat) (now : Nat) :
    Except Err (Store × Option Nat) :=
  match fetch_quote s qid with
  | none => .error .notFound
  | some q =>
    if q.status = "Accepted" then .ok (s, q.job_id)
    else if q.status = "Declined" then .error .invalidTransition
    else
      .ok ({ s with
        jobs := s.jobs ++ [(s.nextJobId, mkJobFromQuote q now)]
        quotes := updAssoc s.quotes qid
          (fun q0 => { q0 with status := "Accepted", job_id := some (maxId (s.jobs ++ [(s.nextJobId, mkJobFromQuote q now)])) })
        nextJobId := s.nextJobId + 1 },
        some (maxId (s.jobs ++ [(s.nextJobId, mkJobFromQuote q now)])))

/-- Embeds `create_job` (`POST /jobs/new`): no existence check on the
client, inserts with the schema's default status `Scheduled` and null
actual and invoice columns, then inserts the member associations. -/
def create_job (s : Store) (client_id : Nat) (description : String)
    (scheduled_date : Nat) (crew : String) (crew_id : Option Nat)
    (member_ids : List Nat) (estimated_hours estimated_cost : Int) :
    Except Err Store :=
  .ok { s with
    jobs := s.jobs ++ [(s.nextJobId,
      { client_id := client_id, description := description
        scheduled_date := scheduled_date, crew := crew, crew_id := crew_id
        estimated_hours := some estimated_hours
        estimated_cost := some estimated_cost
        actual_hours := none, actual_cost := none, status := "Scheduled"
        invoice_sent_at := none, invoice_status := none, paid_at := none
        on_my_way_sent_at := none })]
    job_members := s.job_members ++ member_ids.map (fun m => (s.nextJobId, m))
    nextJobId := s.nextJobId + 1 }

/-- Embeds `update_job` (`POST /jobs/{id}/edit`): 404 when absent,
refuses a Completed job, otherwise rewrites the editable columns and
replaces the member roster wholesale (delete-all-then-insert). -/
def update_job (s : Store) (jid : Nat) (client_id : Nat) (description : String)
    (scheduled_date : Nat) (crew : String) (crew_id : Option Nat)
    (member_ids : List Nat) (estimated_hours estimated_cost : Int) :
    Except Err Store :=
  match fetch_job s jid with
  | none => .error .notFound
  | some job =>
    if job.status = "Completed" then .error .invalidState
    else
      .ok { s with
        jobs := updAssoc s.jobs jid (fun j =>
          { j with client_id := client_id, description := description
                   scheduled_date := scheduled_date, crew := crew
                   crew_id := crew_id
                   estimated_hours := some estimated_hours
                   estimated_cost := some estimated_cost })
        job_members := s.job_members.filter (fun p => p.1 != jid)
          ++ member_ids.map (fun m => (jid, m)) }

/-- Embeds `update_job_status` (`POST /jobs/{id}/update_status`): the
status value is validated against the enumerated set, then the row is
updated blindly, with no existence check and no guard on the current
status. -/
def update_job_status (s : Store) (jid : Nat) (status : String) :
    Except Err Store :=
  if status = "Scheduled" ∨ status = "In progress" ∨ status = "Completed" then
    .ok { s with jobs := updAssoc s.jobs jid (fun j => { j with status := status }) }
  else .error .validationError

/-- Embeds `complete_job` (`POST /jobs/{id}/complete`): writes the
status argument (the form defaults it to `Completed`, but any string is
accepted unchecked) together with `actual_hours` and `actual_cost`;
no existence check. -/
def complete_job (s : Store) (jid : Nat) (actual_hours actual_cost : Int)
    (status : String) : Except Err Store :=
  .ok { s with jobs := updAssoc s.jobs jid (fun j =>
    { j with status := status, actual_hours := some actual_hours
             actual_cost := some actual_cost }) }

/-- Embeds `mark_invoice_sent` (`POST /jobs/{id}/mark_invoice_sent`):
requires a Completed job, then unconditionally writes
`invoice_sent_at = now` and `invoice_status = 'Sent'`. -/
def mark_invoice_sent (s : Store) (jid : Nat) (now : Nat) : Except Err Store :=
  match fetch_job s jid with
  | none => .error .notFound
  | some job =>
    if job.status ≠ "Completed" then .error .preconditionFailed
    else
      .ok { s with jobs := updAssoc s.jobs jid (fun j =>
        { j with invoice_sent_at := some now, invoice_status := some "Sent" }) }

/-- The allowed payment methods of `add_payment`. -/
def allowed_methods : List String := ["Cash", "Check", "Card", "Other"]

/-- Sum of the amounts of the payment rows whose `job_id` matches. -/
def totalPaidL (l : List (Nat × Payment)) (jid : Nat) : Int :=
  (l.filter (fun p => p.2.job_id == jid)).foldl (fun acc p => acc + p.2.amount) 0

/-- `SELECT COALESCE(SUM(amount), 0) FROM payments WHERE job_id = ?`. -/
def totalPaid (s : Store) (jid : Nat) : Int :=
  totalPaidL s.payments jid

/-- Embeds `add_payment` (`POST /jobs/{id}/payments`): requires a
Completed job and an allowed method, appends the payment row, then
recomputes the job's total paid; when it reaches the job's
`actual_cost` (null coalesced to 0, as `job["actual_cost"] or 0`) the
job is stamped `invoice_status = 'Paid'`, `paid_at = now`. -/
def add_payment (s : Store) (jid : Nat) (amount : Int) (method : String)
    (now : Nat) : Except Err Store :=
  match fetch_job s jid with
  | none => .error .notFound
  | some job =>
    if job.status ≠ "Completed" then .error .preconditionFailed
    else if method ∉ allowed_methods then .error .validationError
    else
      let s1 := { s with
        payments := s.payments ++ [(s.nextPaymentId,
          { job_id := jid, amount := amount, method := method, paid_at := now })]
        nextPaymentId := s.nextPaymentId + 1 }
      if job.actual_cost.getD 0 ≤ totalPaid s1 jid then
        .ok { s1 with jobs := updAssoc s1.jobs jid (fun j =>
          { j with invoice_status := some "Paid", paid_at := some now }) }
      else .ok s1

/-- Embeds `notify_customer` (`POST /jobs/{id}/notify_customer`). -/
def notify_customer (s : Store) (jid : Nat) (now : Nat) : Except Err Store :=
  match fetch_job s jid with
  | none => .error .notFound
  | some _ =>
    .ok { s with jobs := updAssoc s.jobs jid (fun j =>
      { j with on_my_way_sent_at := some now }) }

/-- Embeds `add_task` (`POST /jobs/{id}/add_task`): no existence check
on the job (foreign keys are not enforced), inserts the task row. -/
def add_task (s : Store) (jid : Nat) (description : String) :
    Except Err Store :=
  .ok { s with
    tasks := s.tasks ++ [(s.nextTaskId,
      { job_id := jid, description := description, completed := false })]
    nextTaskId := s.nextTaskId + 1 }

/-- Embeds `toggle_task` (`POST /tasks/{id}/toggle`). -/
def toggle_task (s : Store) (tid : Nat) : Except Err Store :=
  match lookupA s.tasks tid with
  | none => .error .notFound
  | some _ =>
    .ok { s with tasks := updAssoc s.tasks tid (fun t =>
      { t with completed := !t.completed }) }

/-- The core operations, one constructor per mutating handler. -/
inductive Op where
  | create_client (name address phone email : String)
  | update_client (cid : Nat) (name address phone email : String)
  | delete_client (cid : Nat)
  | create_crew (name : String)
  | update_crew (cid : Nat) (name : String)
  | delete_crew (cid : Nat)
  | create_member (name : String)
  | update_member (mid : Nat) (name : String)
  | delete_member (mid : Nat)
  | create_quote (client_id : Nat) (description : String)
      (estimated_hours estimated_cost : Int) (valid_until : Option Nat) (now : Nat)
  | send_quote (qid : Nat)
  | decline_quote (qid : Nat)
  | accept_quote (qid : Nat) (now : Nat)
  | create_job (client_id : Nat) (description : String) (scheduled_date : Nat)
      (crew : String) (crew_id : Option Nat) (member_ids : List Nat)
      (estimated_hours estimated_cost : Int)
  | update_job (jid : Nat) (client_id : Nat) (description : String)
      (scheduled_date : Nat) (crew : String) (crew_id : Option Nat)
      (member_ids : List Nat) (estimated_hours estimated_cost : Int)
  | update_job_status (jid : Nat) (status : String)
  | complete_job (jid : Nat) (actual_hours actual_cost : Int) (status : String)
  | mark_invoice_sent (jid : Nat) (now : Nat)
  | add_payment (jid : Nat) (amount : Int) (method : String) (now : Nat)
  | notify_customer (jid : Nat) (now : Nat)
  | add_task (jid : Nat) (description : String)
  | toggle_task (tid : Nat)

/-- Dispatch an operation to its handler. -/
def applyOp (s : Store) : Op → Except Err Store
  | .create_client n a p e => create_client s n a p e
  | .update_client cid n a p e => update_client s cid n a p e
  | .delete_client cid => delete_client s cid
  | .create_crew n => create_crew s n
  | .update_crew cid n => update_crew s cid n
  | .delete_crew cid => delete_crew s cid
  | .create_member n => create_member s n
  | .update_member mid n => update_member s mid n
  | .delete_member mid => delete_member s mid
  | .create_quote c d eh ec v now => create_quote s c d eh ec v now
  | .send_quote qid => send_quote s qid
  | .decline_quote qid => decline_quote s qid
  | .accept_quote qid now => (accept_quote s qid now).map (fun r => r.1)
  | .create_job c d sd cr cwid mids eh ec => create_job s c d sd cr cwid mids eh ec
  | .update_job jid c d sd cr cwid mids eh ec =>
      update_job s jid c d sd cr cwid mids eh ec
  | .update_job_status jid st => update_job_status s jid st
  | .complete_job jid ah ac st => complete_job s jid ah ac st
  | .mark_invoice_sent jid now => mark_invoice_sent s jid now
  | .add_payment jid amount m now => add_payment s jid amount m now
  | .notify_customer jid now => notify_customer s jid now
  | .add_task jid d => add_task s jid d
  | .toggle_task tid => toggle_task s tid

/-- Run one operation; a rejected operation leaves the store unchanged
(each handler is one transaction and errors carry no partial state). -/
def runOp (s : Store) (op : Op) : Store :=
  match applyOp s op with
  | .ok s1 => s1
  | .error _ => s

/-- Run a sequence of operations from the freshly initialised store. -/
def runOps (ops : List Op) : Store :=
  ops.foldl runOp emptyStore

/-- A store is reachable when some operation sequence produces it from
the freshly initialised database. -/
def Reachable (s : Store) : Prop :=
  ∃ ops : List Op, runOps ops = s

/-- Every job row of the list has null actual hours and cost. -/
def AllNullActuals (l : List (Nat × Job)) : Prop :=
  ∀ p ∈ l, p.2.actual_hours = none ∧ p.2.actual_cost = none

/-- A row rewrite is benign when it preserves keys, the actual hours and
cost, and can change the invoice status only by latching it to Paid. -/
def benign (g : Nat × Job → Nat × Job) : Prop :=
  ∀ p, (g p).1 = p.1 ∧ (g p).2.actual_hours = p.2.actual_hours ∧
    (g p).2.actual_cost = p.2.actual_cost ∧
    ((g p).2.invoice_status = p.2.invoice_status ∨
      (g p).2.invoice_status = some "Paid")

/-- Fixture: a client with jobs. -/
def adaClient : Client := ⟨"Ada", "1 Elm St", "555-0101", "ada@example.com"⟩

/-- Fixture: a client with no jobs. -/
def bobClient : Client := ⟨"Bob", "", "", ""⟩

/-- Fixture: a Completed job for client 1 whose invoice is already Paid. -/
def demoJob1 : Job :=
  { client_id := 1, description := "Lawn mowing", scheduled_date := 3
    crew := "", crew_id := none
    estimated_hours := some 2, estimated_cost := some 150
    actual_hours := some 2, actual_cost := some 150
    status := "Completed", invoice_sent_at := some 4
    invoice_status := some "Paid", paid_at := some 5
    on_my_way_sent_at := none }

/-- Fixture: a Scheduled job for client 1. -/
def demoJob2 : Job :=
  { client_id := 1, description := "Hedge trim", scheduled_date := 6
    crew := "", crew_id := none
    estimated_hours := some 1, estimated_cost := some 80
    actual_hours := none, actual_cost := none
    status := "Scheduled", invoice_sent_at := none
    invoice_status := none, paid_at := none, on_my_way_sent_at := none }

/-- Fixture: an Accepted quote linked to job 1. -/
def demoQuote1 : Quote :=
  { client_id := 1, description := "Lawn mowing", estimated_hours := 2
    estimated_cost := 150, status := "Accepted", created_at := some 1
    valid_until := none, job_id := some 1 }

/-- Fixture: a Draft quote for client 1. -/
def demoQuote2 : Quote :=
  { client_id := 1, description := "Patio build", estimated_hours := 4
    estimated_cost := 300, status := "Draft", created_at := some 2
    valid_until := none, job_id := none }

/-- Fixture: a small populated database used by the concrete checks. -/
def demoStore : Store :=
  { clients := [(1, adaClient), (2, bobClient)]
    crews := [], members := []
    jobs := [(1, demoJob1), (2, demoJob2)]
    tasks := [(1, { job_id := 1, description := "Mow front", completed := false })]
    quotes := [(1, demoQuote1), (2, demoQuote2)]
    payments := [(1, { job_id := 1, amount := 150, method := "Cash", paid_at := 5 })]
    job_members := []
    nextClientId := 3, nextCrewId := 1, nextMemberId := 1, nextJobId := 3
    nextTaskId := 2, nextQuoteId := 3, nextPaymentId := 2 }

/-- Fixture: an operation trace that leaves job 1 non-Completed while its
actual hours and cost are populated (complete, then a status rollback). -/
def rollbackOps : List Op :=
  [Op.create_client "Ada" "" "" "",
   Op.create_job 1 "Lawn mowing" 3 "" none [] 2 150,
   Op.complete_job 1 2 150 "Completed",
   Op.update_job_status 1 "Scheduled"]

/-- Fixture: a trace with no completion call. -/
def noCompleteOps : List Op :=
  [Op.create_client "Ada" "" "" "",
   Op.create_job 1 "Lawn mowing" 3 "" none [] 2 150,
   Op.update_job_status 1 "In progress",
   Op.add_task 1 "Mow front"]

/-- Fixture: post-Paid operations that avoid `mark_invoice_sent`. -/
def afterPaidOps : List Op :=
  [Op.add_payment 1 10 "Cash" 8,
   Op.update_job_status 1 "In progress",
   Op.complete_job 1 9 9 "Whatever",
   Op.notify_customer 1 11]

theorem find?_map_key {α : Type} (g : Nat × α → Nat × α)
    (hk : ∀ p, (g p).1 = p.1) (l : List (Nat × α)) (id : Nat) :
    (l.map g).find? (fun p => p.1 == id) = (l.find? (fun p => p.1 == id)).map g := by
  rw [List.find?_map]
  have hpred : ((fun p : Nat × α => p.1 == id) ∘ g) = (fun p : Nat × α => p.1 == id) := by
    funext p
    simp only [Function.comp_apply, hk p]
  rw [hpred]

theorem lookupA_some_eq {α : Type} (l : List (Nat × α)) (id : Nat) (a : α)
    (hl : lookupA l id = some a) :
    l.find? (fun p => p.1 == id) = some (id, a) := by
  unfold lookupA at hl
  cases hf : l.find? (fun p => p.1 == id) with
  | none => rw [hf] at hl; cases hl
  | some p =>
    rw [hf] at hl
    have h1 : (p.1 == id) = true := by simpa using List.find?_some hf
    have h2 : p.2 = a := by simpa using hl
    have h3 : p.1 = id := by simpa using h1
    cases p
    simp only at h2 h3
    rw [h2, h3]

theorem lookupA_map_key {α : Type} (g : Nat × α → Nat × α)
    (hk : ∀ p, (g p).1 = p.1) (l : List (Nat × α)) (id : Nat) (a : α)
    (hl : lookupA l id = some a) :
    lookupA (l.map g) id = some (g (id, a)).2 := by
  unfold lookupA
  rw [find?_map_key g hk, lookupA_some_eq l id a hl]
  rfl

theorem lookupA_updAssoc {α : Type} (l : List (Nat × α)) (id jid : Nat)
    (f : α → α) (a : α) (hl : lookupA l jid = some a) :
    lookupA (updAssoc l id f) jid = some (if jid == id then f a else a) := by
  have hres := lookupA_map_key (fun p => if p.1 == id then (p.1, f p.2) else p)
    (fun p => by dsimp only; split <;> rfl) l jid a hl
  unfold updAssoc
  rw [hres]
  dsimp only
  split <;> rfl

theorem lookupA_updAssoc_self {α : Type} (l : List (Nat × α)) (id : Nat)
    (f : α → α) (a : α) (hl : lookupA l id = some a) :
    lookupA (updAssoc l id f) id = some (f a) := by
  rw [lookupA_updAssoc l id id f a hl]
  simp

theorem updAssoc_of_none {α : Type} (l : List (Nat × α)) (k : Nat) (f : α → α)
    (hl : lookupA l k = none) : updAssoc l k f = l := by
  unfold lookupA at hl
  have hf : l.find? (fun p => p.1 == k) = none := by
    cases hf : l.find? (fun p => p.1 == k) with
    | none => rfl
    | some p => rw [hf] at hl; cases hl
  have hall := List.find?_eq_none.mp hf
  unfold updAssoc
  have hcongr : ∀ p ∈ l, (if p.1 == k then (p.1, f p.2) else p) = id p := by
    intro p hp
    have := hall p hp
    simp only [id_eq]
    rw [if_neg this]
  rw [List.map_congr_left hcongr, List.map_id]

theorem lookupA_append_some {α : Type} (l m : List (Nat × α)) (id : Nat)
    (a : α) (hl : lookupA l id = some a) : lookupA (l ++ m) id = some a := by
  unfold lookupA at hl ⊢
  rw [List.find?_append]
  cases hf : l.find? (fun p => p.1 == id) with
  | none => rw [hf] at hl; cases hl
  | some p => rw [hf] at hl; simpa using hl

theorem foldl_max_le (l : List (Nat × Job)) (i n : Nat) (hi : i ≤ n)
    (h : ∀ p ∈ l, p.1 ≤ n) : l.foldl (fun m p => max m p.1) i ≤ n := by
  induction l generalizing i with
  | nil => exact hi
  | cons p t ih =>
    exact ih (max i p.1)
      (max_le hi (h p (List.mem_cons_self p t)))
      (fun q hq => h q (List.mem_cons_of_mem p hq))

theorem maxId_append (l : List (Nat × Job)) (n : Nat) (j : Job)
    (h : ∀ p ∈ l, p.1 < n) : maxId (l ++ [(n, j)]) = n := by
  unfold maxId
  rw [List.foldl_append]
  exact Nat.max_eq_right
    (foldl_max_le l 0 n (Nat.zero_le n) (fun p hp => Nat.le_of_lt (h p hp)))

theorem fetch_job_lookup (s : Store) (jid : Nat) (job : Job)
    (h : fetch_job s jid = some job) : lookupA s.jobs jid = some job := by
  unfold fetch_job at h
  split at h
  · cases h
  · split at h
    · cases h
    · cases h
      assumption

theorem totalPaidL_append_one (l : List (Nat × Payment)) (pid jid : Nat)
    (amount : Int) (method : String) (now : Nat) :
    totalPaidL (l ++ [(pid, { job_id := jid, amount := amount, method := method, paid_at := now })]) jid
      = totalPaidL l jid + amount := by
  unfold totalPaidL
  rw [List.filter_append, List.foldl_append]
  simp

theorem applyOp_jobs_shape (s s1 : Store) (op : Op)
    (hnc : ∀ j a b st, op ≠ Op.complete_job j a b st)
    (hnm : ∀ j n, op ≠ Op.mark_invoice_sent j n)
    (h : applyOp s op = Except.ok s1) :
    s1.jobs = s.jobs ∨
    (∃ g, benign g ∧ s1.jobs = s.jobs.map g) ∨
    (∃ n j, s1.jobs = s.jobs ++ [(n, j)] ∧ j.actual_hours = none ∧
      j.actual_cost = none ∧ j.invoice_status = none) := by
  cases op with
  | create_client n a p e =>
    simp only [applyOp, create_client] at h
    cases h
    left
    rfl
  | update_client cid n a p e =>
    simp only [applyOp, update_client] at h
    split at h
    · cases h
    · cases h
      left
      rfl
  | delete_client cid =>
    simp only [applyOp, delete_client] at h
    split at h
    · cases h
    · split at h
      · cases h
      · cases h
        left
        rfl
  | create_crew n =>
    simp only [applyOp, create_crew] at h
    cases h
    left
    rfl
  | update_crew cid n =>
    simp only [applyOp, update_crew] at h
    split at h
    · cases h
    · cases h
      left
      rfl
  | delete_crew cid =>
    simp only [applyOp, delete_crew] at h
    split at h
    · cases h
    · cases h
      right
      left
      refine ⟨_, ?_, rfl⟩
      intro p
      dsimp only
      split
      · exact ⟨rfl, rfl, rfl, Or.inl rfl⟩
      · exact ⟨rfl, rfl, rfl, Or.inl rfl⟩
  | create_member n =>
    simp only [applyOp, create_member] at h
    cases h
    left
    rfl
  | update_member mid n =>
    simp only [applyOp, update_member] at h
    split at h
    · cases h
    · cases h
      left
      rfl
  | delete_member mid =>
    simp only [applyOp, delete_member] at h
    split at h
    · cases h
    · cases h
      left
      rfl
  | create_quote c d eh ec v now =>
    simp only [applyOp, create_quote] at h
    split at h
    · cases h
    · cases h
      left
      rfl
  | send_quote qid =>
    simp only [applyOp, send_quote] at h
    split at h
    · cases h
    · split at h
      · cases h
      · cases h
        left
        rfl
  | decline_quote qid =>
    simp only [applyOp, decline_quote] at h
    split at h
    · cases h
    · split at h
      · cases h
        left
        rfl
      · cases h
  | accept_quote qid now =>
    simp only [applyOp, accept_quote] at h
    split at h
    · simp only [Except.map] at h
      cases h
    · split at h
      · simp only [Except.map] at h
        cases h
        left
        rfl
      · split at h
        · simp only [Except.map] at h
          cases h
        · simp only [Except.map] at h
          cases h
          right
          right
          exact ⟨s.nextJobId, mkJobFromQuote _ now, rfl, rfl, rfl, rfl⟩
  | create_job c d sd cr cwid mids eh ec =>
    simp only [applyOp, create_job] at h
    cases h
    right
    right
    exact ⟨s.nextJobId, _, rfl, rfl, rfl, rfl⟩
  | update_job jid c d sd cr cwid mids eh ec =>
    simp only [applyOp, update_job] at h
    split at h
    · cases h
    · split at h
      · cases h
      · cases h
        right
        left
        refine ⟨_, ?_, rfl⟩
        intro p
        dsimp only [updAssoc]
        split
        · exact ⟨rfl, rfl, rfl, Or.inl rfl⟩
        · exact ⟨rfl, rfl, rfl, Or.inl rfl⟩
  | update_job_status jid st =>
    simp only [applyOp, update_job_status] at h
    split at h
    · cases h
      right
      left
      refine ⟨_, ?_, rfl⟩
      intro p
      dsimp only [updAssoc]
      split
      · exact ⟨rfl, rfl, rfl, Or.inl rfl⟩
      · exact ⟨rfl, rfl, rfl, Or.inl rfl⟩
    · cases h
  | complete_job jid ah ac st =>
    exact absurd rfl (hnc jid ah ac st)
  | mark_invoice_sent jid now =>
    exact absurd rfl (hnm jid now)
  | add_payment jid amount m now =>
    simp only [applyOp, add_payment] at h
    split at h
    · cases h
    · split at h
      · cases h
      · split at h
        · cases h
        · split at h
          · cases h
            right
            left
            refine ⟨_, ?_, rfl⟩
            intro p
            dsimp only [updAssoc]
            split
            · exact ⟨rfl, rfl, rfl, Or.inr rfl⟩
            · exact ⟨rfl, rfl, rfl, Or.inl rfl⟩
          · cases h
            left
            rfl
  | notify_customer jid now =>
    simp only [applyOp, notify_customer] at h
    split at h
    · cases h
    · cases h
      right
      left
      refine ⟨_, ?_, rfl⟩
      intro p
      dsimp only [updAssoc]
      split
      · exact ⟨rfl, rfl, rfl, Or.inl rfl⟩
      · exact ⟨rfl, rfl, rfl, Or.inl rfl⟩
  | add_task jid d =>
    simp only [applyOp, add_task] at h
    cases h
    left
    rfl
  | toggle_task tid =>
    simp only [applyOp, toggle_task] at h
    split at h
    · cases h
    · cases h
      left
      rfl

theorem allNull_map (l : List (Nat × Job)) (g : Nat × Job → Nat × Job)
    (hg : ∀ p, (g p).2.actual_hours = p.2.actual_hours ∧
      (g p).2.actual_cost = p.2.actual_cost)
    (h : AllNullActuals l) : AllNullActuals (l.map g) := by
  intro p hp
  obtain ⟨q, hq, rfl⟩ := List.mem_map.mp hp
  obtain ⟨h1, h2⟩ := h q hq
  exact ⟨(hg q).1.trans h1, (hg q).2.trans h2⟩

theorem allNull_append (l : List (Nat × Job)) (n : Nat) (j : Job)
    (hj : j.actual_hours = none ∧ j.actual_cost = none)
    (h : AllNullActuals l) : AllNullActuals (l ++ [(n, j)]) := by
  intro p hp
  rcases List.mem_append.mp hp with h1 | h1
  · exact h p h1
  · have : p = (n, j) := by simpa using h1
    rw [this]
    exact hj

theorem runOp_allNull (s : Store) (op : Op)
    (hnc : ∀ j a b st, op ≠ Op.complete_job j a b st)
    (h : AllNullActuals s.jobs) : AllNullActuals (runOp s op).jobs := by
  unfold runOp
  cases happ : applyOp s op with
  | error e => exact h
  | ok s1 =>
    by_cases hm : ∃ j n, op = Op.mark_invoice_sent j n
    · obtain ⟨j, n, rfl⟩ := hm
      simp only [applyOp, mark_invoice_sent] at happ
      split at happ
      · cases happ
      · split at happ
        · cases happ
        · cases happ
          apply allNull_map s.jobs _ _ h
          intro p
          dsimp only [updAssoc]
          split
          · exact ⟨rfl, rfl⟩
          · exact ⟨rfl, rfl⟩
    · have hnm : ∀ j n, op ≠ Op.mark_invoice_sent j n := by
        push_neg at hm
        exact hm
      rcases applyOp_jobs_shape s s1 op hnc hnm happ with hsame | ⟨g, hg, hmap⟩ |
        ⟨n, j, happend, h1, h2, _⟩
      · rw [hsame]
        exact h
      · rw [hmap]
        exact allNull_map s.jobs g (fun p => ⟨(hg p).2.1, (hg p).2.2.1⟩) h
      · rw [happend]
        exact allNull_append s.jobs n j ⟨h1, h2⟩ h

theorem paid_of_shape (sj tj : List (Nat × Job))
    (hshape : tj = sj ∨ (∃ g, benign g ∧ tj = sj.map g) ∨
      (∃ n j, tj = sj ++ [(n, j)] ∧ j.actual_hours = none ∧
        j.actual_cost = none ∧ j.invoice_status = none))
    (jid : Nat) (job : Job) (hj : lookupA sj jid = some job)
    (hp : job.invoice_status = some "Paid") :
    (lookupA tj jid).map Job.invoice_status = some (some "Paid") := by
  rcases hshape with hsame | ⟨g, hg, hmap⟩ | ⟨n, j, happend, _, _, _⟩
  · rw [hsame, hj]
    simp [hp]
  · rw [hmap, lookupA_map_key g (fun p => (hg p).1) sj jid job hj]
    rcases (hg (jid, job)).2.2.2 with heq | heq
    · simp only [Option.map_some']
      rw [heq]
      simp [hp]
    · simp only [Option.map_some']
      rw [heq]
  · rw [happend, lookupA_append_some sj [(n, j)] jid job hj]
    simp [hp]

theorem runOp_paid (s : Store) (op : Op)
    (hnm : ∀ j n, op ≠ Op.mark_invoice_sent j n)
    (jid : Nat) (job : Job) (hj : lookupA s.jobs jid = some job)
    (hp : job.invoice_status = some "Paid") :
    (lookupA (runOp s op).jobs jid).map Job.invoice_status = some (some "Paid") := by
  unfold runOp
  cases happ : applyOp s op with
  | error e =>
    rw [hj]
    simp [hp]
  | ok s1 =>
    by_cases hc : ∃ j a b st, op = Op.complete_job j a b st
    · obtain ⟨j, a, b, st, rfl⟩ := hc
      simp only [applyOp, complete_job] at happ
      cases happ
      rw [lookupA_updAssoc s.jobs j jid _ job hj]
      simp only [Option.map_some']
      split <;> simp [hp]
    · have hnc : ∀ j a b st, op ≠ Op.complete_job j a b st := by
        push_neg at hc
        exact hc
      exact paid_of_shape s.jobs s1.jobs
        (applyOp_jobs_shape s s1 op hnc hnm happ) jid job hj hp

/-- Claim C2: calling accept on an already Accepted quote creates no
second job and returns the quote's stored job reference; the store —
hence the quote's status and `job_id` and the whole jobs table — is
unchanged. -/
theorem accept_quote_idempotent (s : Store) (qid : Nat) (q : Quote) (now : Nat)
    (hq : fetch_quote s qid = some q) (ha : q.status = "Accepted") :
    accept_quote s qid now = Except.ok (s, q.job_id) := by
  simp [accept_quote, hq, ha]

theorem accept_quote_idempotent_witness :
    accept_quote demoStore 1 9 = Except.ok (demoStore, demoQuote1.job_id) :=
  accept_quote_idempotent demoStore 1 demoQuote1 9 (by decide) (by decide)

/-- Claim C5: accepting a Draft or Sent quote appends exactly one new
job carrying the quote's client, description and estimates, with status
Scheduled and scheduled time `now`, and in the same operation marks the
quote Accepted with `job_id` pointing at the new job; the single
returned store carries both effects. -/
theorem accept_quote_creates_job (s : Store) (qid : Nat) (q : Quote) (now : Nat)
    (hq : fetch_quote s qid = some q)
    (hs : q.status = "Draft" ∨ q.status = "Sent")
    (hw : ∀ p ∈ s.jobs, p.1 < s.nextJobId) :
    accept_quote s qid now = Except.ok
      ({ s with
          jobs := s.jobs ++ [(s.nextJobId, mkJobFromQuote q now)]
          quotes := updAssoc s.quotes qid
            (fun q0 => { q0 with status := "Accepted", job_id := some s.nextJobId })
          nextJobId := s.nextJobId + 1 }, some s.nextJobId) := by
  have h1 : q.status ≠ "Accepted" := by
    rcases hs with h | h <;> (rw [h]; decide)
  have h2 : q.status ≠ "Declined" := by
    rcases hs with h | h <;> (rw [h]; decide)
  have hmax : maxId (s.jobs ++ [(s.nextJobId, mkJobFromQuote q now)]) = s.nextJobId :=
    maxId_append s.jobs s.nextJobId (mkJobFromQuote q now) hw
  simp only [accept_quote, hq, if_neg h1, if_neg h2, hmax]

theorem accept_quote_creates_job_witness :
    accept_quote demoStore 2 9 = Except.ok
      ({ demoStore with
          jobs := demoStore.jobs ++ [(demoStore.nextJobId, mkJobFromQuote demoQuote2 9)]
          quotes := updAssoc demoStore.quotes 2
            (fun q0 => { q0 with status := "Accepted", job_id := some demoStore.nextJobId })
          nextJobId := demoStore.nextJobId + 1 }, some demoStore.nextJobId) :=
  accept_quote_creates_job demoStore 2 demoQuote2 9 (by decide) (by decide) (by decide)

/-- Claim C10: `complete_job` validates nothing: for any status string,
including values outside the enumerated set, it succeeds and writes that
status together with the given actual hours and cost. -/
theorem complete_job_unvalidated (s : Store) (jid : Nat) (job : Job)
    (ah ac : Int) (st : String) (hj : lookupA s.jobs jid = some job) :
    (complete_job s jid ah ac st).map (fun s1 => lookupA s1.jobs jid)
      = Except.ok (some { job with status := st, actual_hours := some ah, actual_cost := some ac }) := by
  simp only [complete_job, Except.map]
  rw [lookupA_updAssoc_self s.jobs jid _ job hj]

theorem complete_job_unvalidated_witness :
    (complete_job demoStore 2 3 99 "Bogus").map (fun s1 => lookupA s1.jobs 2)
      = Except.ok (some { demoJob2 with status := "Bogus", actual_hours := some 3, actual_cost := some 99 }) :=
  complete_job_unvalidated demoStore 2 demoJob2 3 99 "Bogus" (by decide)

/-- Claim C8: deleting a client referenced by at least one job fails
with the `has_jobs` conflict and removes nothing (the error carries no
store); deleting a client with no jobs removes exactly that client row
and touches no other table. -/
theorem delete_client_rules (s : Store) (cid : Nat) (c : Client)
    (hc : fetch_client s cid = some c) :
    ((∃ p ∈ s.jobs, p.2.client_id = cid) →
      delete_client s cid = Except.error Err.conflictError) ∧
    ((∀ p ∈ s.jobs, p.2.client_id ≠ cid) →
      delete_client s cid = Except.ok
        { s with clients := s.clients.filter (fun p => p.1 != cid) }) := by
  constructor
  · rintro ⟨p, hp, hpc⟩
    have hmem : p ∈ s.jobs.filter (fun p => p.2.client_id == cid) :=
      List.mem_filter.mpr ⟨hp, by simpa using hpc⟩
    have hlen : 0 < (s.jobs.filter (fun p => p.2.client_id == cid)).length :=
      List.length_pos_of_mem hmem
    simp only [delete_client, hc, if_pos hlen]
  · intro hall
    have hnil : s.jobs.filter (fun p => p.2.client_id == cid) = [] :=
      List.filter_eq_nil_iff.mpr (fun p hp => by simpa using hall p hp)
    have hlen : ¬ 0 < (s.jobs.filter (fun p => p.2.client_id == cid)).length := by
      rw [hnil]
      simp
    simp only [delete_client, hc, if_neg hlen]

theorem delete_client_rules_witness :
    delete_client demoStore 1 = Except.error Err.conflictError ∧
    delete_client demoStore 2 = Except.ok
      { demoStore with clients := demoStore.clients.filter (fun p => p.1 != 2) } :=
  ⟨(delete_client_rules demoStore 1 adaClient (by decide)).1 (by decide),
   (delete_client_rules demoStore 2 bobClient (by decide)).2 (by decide)⟩

/-- Claim C6: on a job that is not Completed, both invoice operations
fail with the completed-first precondition and return no store (so no
payment row is created and the invoice columns keep their values); on a
Completed job, a payment method outside the enumerated set fails
validation before the payment insert. -/
theorem invoice_ops_require_completed (s : Store) (jid : Nat) (job : Job)
    (amount : Int) (method : String) (now : Nat)
    (hj : fetch_job s jid = some job) :
    (job.status ≠ "Completed" →
      add_payment s jid amount method now = Except.error Err.preconditionFailed ∧
      mark_invoice_sent s jid now = Except.error Err.preconditionFailed) ∧
    (job.status = "Completed" → method ∉ allowed_methods →
      add_payment s jid amount method now = Except.error Err.validationError) := by
  constructor
  · intro hne
    constructor
    · simp only [add_payment, hj, if_pos hne]
    · simp only [mark_invoice_sent, hj, if_pos hne]
  · intro hcomp hmeth
    have h1 : ¬ (job.status ≠ "Completed") := by simp [hcomp]
    simp only [add_payment, hj, if_neg h1, if_pos hmeth]

theorem invoice_ops_require_completed_witness :
    add_payment demoStore 2 50 "Cash" 7 = Except.error Err.preconditionFailed ∧
    mark_invoice_sent demoStore 2 7 = Except.error Err.preconditionFailed ∧
    add_payment demoStore 1 50 "Bitcoin" 7 = Except.error Err.validationError :=
  ⟨((invoice_ops_require_completed demoStore 2 demoJob2 50 "Cash" 7 (by decide)).1
      (by decide)).1,
   ((invoice_ops_require_completed demoStore 2 demoJob2 50 "Cash" 7 (by decide)).1
      (by decide)).2,
   (invoice_ops_require_completed demoStore 1 demoJob1 50 "Bitcoin" 7 (by decide)).2
      (by decide) (by decide)⟩

/-- Claim C1: recording a payment on a Completed job with a valid method
appends exactly one payment row for that job, and the invoice latch is
decided by the recomputed total: when the total after insertion (the
previous total plus the new amount) reaches the job's `actual_cost`
(null read as 0) the job is stamped Paid with `paid_at = now`; when it
stays strictly below, the job row — in particular `invoice_status` and
`paid_at` — is unchanged. -/
theorem add_payment_reconciliation (s : Store) (jid : Nat) (job : Job)
    (amount : Int) (method : String) (now : Nat)
    (hj : fetch_job s jid = some job) (hstat : job.status = "Completed")
    (hm : method ∈ allowed_methods) :
    (add_payment s jid amount method now).map Store.payments
      = Except.ok (s.payments ++ [(s.nextPaymentId, { job_id := jid, amount := amount, method := method, paid_at := now })]) ∧
    (job.actual_cost.getD 0 ≤ totalPaid s jid + amount →
      (add_payment s jid amount method now).map (fun s1 => lookupA s1.jobs jid)
        = Except.ok (some { job with invoice_status := some "Paid", paid_at := some now })) ∧
    (totalPaid s jid + amount < job.actual_cost.getD 0 →
      (add_payment s jid amount method now).map (fun s1 => lookupA s1.jobs jid)
        = Except.ok (some job)) := by
  have h1 : ¬ (job.status ≠ "Completed") := by simp [hstat]
  have h2 : ¬ (method ∉ allowed_methods) := by simp [hm]
  have hjl : lookupA s.jobs jid = some job := fetch_job_lookup s jid job hj
  have htot : totalPaid { s with
      payments := s.payments ++ [(s.nextPaymentId, { job_id := jid, amount := amount, method := method, paid_at := now })]
      nextPaymentId := s.nextPaymentId + 1 } jid = totalPaid s jid + amount := by
    show totalPaidL (s.payments ++ [(s.nextPaymentId, { job_id := jid, amount := amount, method := method, paid_at := now })]) jid
      = totalPaidL s.payments jid + amount
    exact totalPaidL_append_one s.payments s.nextPaymentId jid amount method now
  refine ⟨?_, ?_, ?_⟩
  · simp only [add_payment, hj, if_neg h1, if_neg h2]
    split <;> rfl
  · intro hcost
    simp only [add_payment, hj, if_neg h1, if_neg h2, htot, if_pos hcost, Except.map]
    rw [lookupA_updAssoc_self s.jobs jid _ job hjl]
  · intro hcost
    have hneg : ¬ (job.actual_cost.getD 0 ≤ totalPaid s jid + amount) := not_le.mpr hcost
    simp only [add_payment, hj, if_neg h1, if_neg h2, htot, if_neg hneg, Except.map]
    rw [hjl]

theorem add_payment_reconciliation_witness :
    (add_payment demoStore 1 150 "Cash" 7).map Store.payments
      = Except.ok (demoStore.payments ++ [(demoStore.nextPaymentId, { job_id := 1, amount := 150, method := "Cash", paid_at := 7 })]) ∧
    (add_payment demoStore 1 150 "Cash" 7).map (fun s1 => lookupA s1.jobs 1)
      = Except.ok (some { demoJob1 with invoice_status := some "Paid", paid_at := some 7 }) :=
  ⟨(add_payment_reconciliation demoStore 1 demoJob1 150 "Cash" 7
      (by decide) (by decide) (by decide)).1,
   (add_payment_reconciliation demoStore 1 demoJob1 150 "Cash" 7
      (by decide) (by decide) (by decide)).2.1 (by decide)⟩

/-- Claim C4 counterexample: on the Completed job 1, `update_job_status`
does not fail with InvalidState — it succeeds and moves the status back
to Scheduled, so the claim as stated is false for updateStatus. -/
theorem update_status_ignores_completed :
    (lookupA demoStore.jobs 1).map Job.status = some "Completed" ∧
    (update_job_status demoStore 1 "Scheduled").map (fun s1 => (lookupA s1.jobs 1).map Job.status)
      = Except.ok (some "Scheduled") := by decide

/-- Claim C4 (amended): on a Completed job, the field-edit operation
(`update_job`, which also carries the member roster) fails with
InvalidState and returns no store; `update_job_status`, however, has no
Completed guard: with any enumerated status value it succeeds and
rewrites the status even on a Completed job. -/
theorem completed_job_edit_rules (s : Store) (jid : Nat) (job : Job)
    (client_id : Nat) (d : String) (sd : Nat) (cr : String) (cwid : Option Nat)
    (mids : List Nat) (eh ec : Int) (st : String)
    (hj : fetch_job s jid = some job) (hcomp : job.status = "Completed")
    (hst : st = "Scheduled" ∨ st = "In progress" ∨ st = "Completed") :
    update_job s jid client_id d sd cr cwid mids eh ec = Except.error Err.invalidState ∧
    (update_job_status s jid st).map (fun s1 => lookupA s1.jobs jid)
      = Except.ok (some { job with status := st }) := by
  constructor
  · simp only [update_job, hj, if_pos hcomp]
  · simp only [update_job_status, if_pos hst, Except.map]
    rw [lookupA_updAssoc_self s.jobs jid _ job (fetch_job_lookup s jid job hj)]

theorem completed_job_edit_rules_witness :
    update_job demoStore 1 1 "new text" 3 "" none [] 1 1 = Except.error Err.invalidState ∧
    (update_job_status demoStore 1 "Scheduled").map (fun s1 => lookupA s1.jobs 1)
      = Except.ok (some { demoJob1 with status := "Scheduled" }) :=
  completed_job_edit_rules demoStore 1 demoJob1 1 "new text" 3 "" none [] 1 1 "Scheduled"
    (by decide) (by decide) (Or.inl rfl)

/-- Claim C9 counterexample: with no job 99 in the store,
`update_job_status` and `complete_job` do not fail with NotFound — both
succeed (the UPDATE matches zero rows) and leave the store unchanged. -/
theorem missing_id_counterexample :
    lookupA demoStore.jobs 99 = none ∧
    update_job_status demoStore 99 "Completed" = Except.ok demoStore ∧
    complete_job demoStore 99 1 1 "Completed" = Except.ok demoStore := by decide

/-- Claim C9 (amended): operations that fetch their entity fail with
NotFound on a missing identifier and return no store; `update_job_status`
and `complete_job` perform no existence check and succeed with the store
unchanged (a zero-row UPDATE); `add_task` also performs no check and
succeeds, inserting a task row that references the missing job. -/
theorem missing_id_rules (s : Store) (jid qid tid cid : Nat)
    (amount : Int) (method : String) (now : Nat) (d : String)
    (client_id : Nat) (sd : Nat) (cr : String) (cwid : Option Nat)
    (mids : List Nat) (eh ec ah ac : Int) (st st2 : String)
    (name address phone email : String)
    (hj : lookupA s.jobs jid = none) (hq : lookupA s.quotes qid = none)
    (ht : lookupA s.tasks tid = none) (hcl : lookupA s.clients cid = none)
    (hst : st = "Scheduled" ∨ st = "In progress" ∨ st = "Completed") :
    mark_invoice_sent s jid now = Except.error Err.notFound ∧
    add_payment s jid amount method now = Except.error Err.notFound ∧
    notify_customer s jid now = Except.error Err.notFound ∧
    update_job s jid client_id d sd cr cwid mids eh ec = Except.error Err.notFound ∧
    send_quote s qid = Except.error Err.notFound ∧
    decline_quote s qid = Except.error Err.notFound ∧
    accept_quote s qid now = Except.error Err.notFound ∧
    toggle_task s tid = Except.error Err.notFound ∧
    update_client s cid name address phone email = Except.error Err.notFound ∧
    delete_client s cid = Except.error Err.notFound ∧
    update_job_status s jid st = Except.ok s ∧
    complete_job s jid ah ac st2 = Except.ok s ∧
    add_task s jid d = Except.ok { s with
      tasks := s.tasks ++ [(s.nextTaskId, { job_id := jid, description := d, completed := false })]
      nextTaskId := s.nextTaskId + 1 } := by
  have hfj : fetch_job s jid = none := by
    unfold fetch_job
    rw [hj]
  have hfq : fetch_quote s qid = none := by
    unfold fetch_quote
    rw [hq]
  refine ⟨?_, ?_, ?_, ?_, ?_, ?_, ?_, ?_, ?_, ?_, ?_, ?_, ?_⟩
  · simp only [mark_invoice_sent, hfj]
  · simp only [add_payment, hfj]
  · simp only [notify_customer, hfj]
  · simp only [update_job, hfj]
  · simp only [send_quote, hfq]
  · simp only [decline_quote, hfq]
  · simp only [accept_quote, hfq]
  · simp only [toggle_task, ht]
  · simp only [update_client, fetch_client, hcl]
  · simp only [delete_client, fetch_client, hcl]
  · simp only [update_job_status, if_pos hst]
    rw [updAssoc_of_none s.jobs jid _ hj]
  · simp only [complete_job]
    rw [updAssoc_of_none s.jobs jid _ hj]
  · rfl

theorem missing_id_rules_witness :
    mark_invoice_sent demoStore 99 7 = Except.error Err.notFound ∧
    update_job_status demoStore 99 "Scheduled" = Except.ok demoStore ∧
    complete_job demoStore 99 2 2 "X" = Except.ok demoStore :=
  let h := missing_id_rules demoStore 99 99 99 99 5 "Cash" 7 "task" 1 3 "" none [] 1 1 2 2
    "Scheduled" "X" "N" "A" "P" "E" (by decide) (by decide) (by decide) (by decide)
    (Or.inl rfl)
  ⟨h.1, h.2.2.2.2.2.2.2.2.2.2.1, h.2.2.2.2.2.2.2.2.2.2.2.1⟩

/-- Claim C3 counterexample: job 1 of the demo store is Paid, yet the
core operation `mark_invoice_sent` succeeds on it and rewrites
`invoice_status` back to Sent, so "Paid is never reverted under any
sequence of core operations" is false as stated. -/
theorem mark_invoice_sent_reverts_paid :
    (lookupA demoStore.jobs 1).map Job.invoice_status = some (some "Paid") ∧
    (mark_invoice_sent demoStore 1 9).map (fun s1 => (lookupA s1.jobs 1).map Job.invoice_status)
      = Except.ok (some (some "Sent")) := by decide

/-- Claim C3 (amended): once a job's `invoice_status` is Paid, every
sequence of core operations that does not include `mark_invoice_sent`
keeps it Paid — payments are append-only and `add_payment` only ever
(re)writes Paid; `mark_invoice_sent`, however, resets the field to Sent
on any Completed job, including an already Paid one. -/
theorem paid_latch (s : Store) (ops : List Op) (jid : Nat) (job : Job)
    (hops : ∀ op ∈ ops, ∀ j n, op ≠ Op.mark_invoice_sent j n)
    (hj : lookupA s.jobs jid = some job)
    (hp : job.invoice_status = some "Paid") :
    (lookupA (ops.foldl runOp s).jobs jid).map Job.invoice_status = some (some "Paid") := by
  have main : ∀ (l : List Op) (s0 : Store) (job0 : Job),
      (∀ op ∈ l, ∀ j n, op ≠ Op.mark_invoice_sent j n) →
      lookupA s0.jobs jid = some job0 → job0.invoice_status = some "Paid" →
      (lookupA (l.foldl runOp s0).jobs jid).map Job.invoice_status = some (some "Paid") := by
    intro l
    induction l with
    | nil =>
      intro s0 job0 _ hj0 hp0
      simp only [List.foldl_nil]
      rw [hj0]
      simp [hp0]
    | cons op t ih =>
      intro s0 job0 hl hj0 hp0
      simp only [List.foldl_cons]
      have hstep := runOp_paid s0 op (hl op (List.mem_cons_self op t)) jid job0 hj0 hp0
      cases hl1 : lookupA (runOp s0 op).jobs jid with
      | none => rw [hl1] at hstep; cases hstep
      | some job1 =>
        rw [hl1] at hstep
        have hp1 : job1.invoice_status = some "Paid" := by simpa using hstep
        exact ih (runOp s0 op) job1 (fun o ho => hl o (List.mem_cons_of_mem op ho)) hl1 hp1
  exact main ops s job hops hj hp

theorem paid_latch_witness :
    (lookupA (afterPaidOps.foldl runOp demoStore).jobs 1).map Job.invoice_status
      = some (some "Paid") :=
  paid_latch demoStore afterPaidOps 1 demoJob1
    (by
      intro op hop j n
      simp only [afterPaidOps, List.mem_cons, List.not_mem_nil, or_false] at hop
      rcases hop with rfl | rfl | rfl | rfl <;> exact fun hcontra => Op.noConfusion hcontra)
    (by decide) (by decide)

/-- Claim C7 counterexample: the trace create client, create job,
complete, then a status rollback through `update_job_status` reaches a
store whose job 1 is not Completed yet carries non-null actual hours and
cost, so the claimed invariant fails on reachable states. -/
theorem actuals_invariant_counterexample :
    Reachable (runOps rollbackOps) ∧
    (lookupA (runOps rollbackOps).jobs 1).map Job.status = some "Scheduled" ∧
    (lookupA (runOps rollbackOps).jobs 1).map Job.actual_hours = some (some 2) ∧
    (lookupA (runOps rollbackOps).jobs 1).map Job.actual_cost = some (some 150) :=
  ⟨⟨rollbackOps, rfl⟩, by decide, by decide, by decide⟩

/-- Claim C7 (amended): `complete_job` is the sole writer of the actual
hours and cost columns: in every state reached from the empty store by a
trace that never invokes `complete_job`, every job has both columns
null.  (The original invariant tied to "not Completed" fails because
`complete_job` writes the columns while accepting any status string and
`update_job_status` can move a Completed job back.) -/
theorem actuals_null_without_complete (ops : List Op)
    (hops : ∀ op ∈ ops, ∀ j a b st, op ≠ Op.complete_job j a b st) :
    AllNullActuals (runOps ops).jobs := by
  have main : ∀ (l : List Op) (s : Store),
      (∀ op ∈ l, ∀ j a b st, op ≠ Op.complete_job j a b st) →
      AllNullActuals s.jobs → AllNullActuals (l.foldl runOp s).jobs := by
    intro l
    induction l with
    | nil =>
      intro s _ h
      simpa using h
    | cons op t ih =>
      intro s hl h
      simp only [List.foldl_cons]
      exact ih (runOp s op) (fun o ho => hl o (List.mem_cons_of_mem op ho))
        (runOp_allNull s op (hl op (List.mem_cons_self op t)) h)
  exact main ops emptyStore hops (fun p hp => absurd hp (List.not_mem_nil p))

theorem actuals_null_without_complete_witness :
    AllNullActuals (runOps noCompleteOps).jobs :=
  actuals_null_without_complete noCompleteOps
    (by
      intro op hop j a b st
      simp only [noCompleteOps, List.mem_cons, List.not_mem_nil, or_false] at hop
      rcases hop with rfl | rfl | rfl | rfl <;> exact fun hcontra => Op.noConfusion hcontra)
